import Mathlib

/-!
A shallow embedding of `src/app.py`, class `InstaLLM`: the model-registry
scan (`_load_available_models`), the loaded-handle dictionary and the
per-model conversation history (`load_model`, `generate_response`).

Python dictionaries are modelled as insertion-ordered association lists;
the outside world (the filesystem, the `Llama` inference library and the
`run_inference.py` subprocess) is a record of functions, with a raised
exception modelled as `Except.error` carrying the exception's string.
Python `str.strip()` and `str.replace(tok, "")` are modelled by the
executable `pyStrip` and `removeTok` below (Python also strips some
unicode whitespace, which no string of this program contains).
-/

namespace InstaLLM

/-- One conversation message, the Python dict `{"role": r, "content": c}`
appended to `self.conversation_history[model_name]`. -/
structure Turn where
  role : String
  content : String
deriving DecidableEq, Repr

/-- The value stored in `self.models[name]` (src/app.py lines 178-181 and
190-197): either `{"type": "bitnet", "path": p}` or
`{"type": "llama", "model": Llama(...)}`.  Each `Llama(...)` call builds a
fresh object; the object is identified by the value of a construction
counter, so that a handle built by a later load is distinguishable from an
earlier one. -/
inductive Handle where
  | bitnet (path : String)
  | llama (obj : Nat)
deriving DecidableEq, Repr

/-- What `subprocess.run(cmd, capture_output=True, text=True)` returns:
exit code, captured standard output and captured standard error. -/
structure SubprocResult where
  returncode : Int
  stdout : String
  stderr : String
deriving DecidableEq, Repr

/-- The outside world as `app.py` observes it: `os.path.exists`,
`sys.executable`, the `Llama(...)` constructor, calling a built llama
object on a prompt string, and running `run_inference.py` on a model path
and a prompt (the remaining command-line flags at src/app.py lines 252-261
are fixed constants).  `Except.error e` models a raised exception with
`str(e) = e`. -/
structure Env where
  fileExists : String → Bool
  pythonPath : String
  llamaNew : String → Except String Unit
  llamaCall : Nat → String → Except String String
  runInference : String → String → Except String SubprocResult

/-- The mutable attributes of an `InstaLLM` instance (src/app.py lines
120-125), plus the construction counter for fresh llama objects. -/
structure AppState where
  models_dir : String
  available_models : List String
  bitnet_models : List (String × String)
  models : List (String × Handle)
  conversation_history : List (String × List Turn)
  fresh : Nat
deriving DecidableEq

/-- Python `d[k]` / `k in d` lookup on an association list. -/
def dictGet {α : Type} : List (String × α) → String → Option α
  | [], _ => none
  | (k', v) :: rest, k => if k' = k then some v else dictGet rest k

/-- Python `d[k] = v`: replace the value in place when the key is present,
append the pair otherwise (insertion order preserved). -/
def dictSet {α : Type} : List (String × α) → String → α → List (String × α)
  | [], k, v => [(k, v)]
  | (k', v') :: rest, k, v =>
    if k' = k then (k, v) :: rest else (k', v') :: dictSet rest k v

/-- Does `needle` occur at the start of `l`? -/
def prefixMatch : List Char → List Char → Bool
  | [], _ => true
  | _ :: _, [] => false
  | a :: as, b :: bs => a == b && prefixMatch as bs

/-- Does `needle` occur as a contiguous sublist of `l`? -/
def hasSub (needle : List Char) : List Char → Bool
  | [] => prefixMatch needle []
  | c :: rest => prefixMatch needle (c :: rest) || hasSub needle rest

/-- Python `needle in haystack` on strings: substring containment. -/
def strContains (haystack needle : String) : Bool :=
  hasSub needle.toList haystack.toList

/-- The whitespace characters Python `str.strip()` removes (the ASCII
ones; unicode whitespace does not occur in this program's strings). -/
def isPyWhitespace (c : Char) : Bool :=
  c = ' ' || c = '\t' || c = '\n' || c = '\r' || c = '\x0b' || c = '\x0c'

/-- Python `str.strip()`: drop leading and trailing whitespace. -/
def pyStrip (s : String) : String :=
  String.mk (((s.toList.dropWhile isPyWhitespace).reverse.dropWhile
    isPyWhitespace).reverse)

/-- One left-to-right pass removing non-overlapping occurrences of `tok`;
`fuel` bounds the recursion (one character is consumed per step, so the
input length is enough fuel). -/
def removeTokAux (tok : List Char) : Nat → List Char → List Char
  | _, [] => []
  | 0, l => l
  | fuel + 1, c :: rest =>
    if prefixMatch tok (c :: rest) then
      removeTokAux tok fuel (List.drop (tok.length - 1) rest)
    else
      c :: removeTokAux tok fuel rest

/-- Python `s.replace(tok, "")` for a non-empty `tok`: remove all
non-overlapping occurrences of `tok`, scanning left to right. -/
def removeTok (s tok : String) : String :=
  String.mk (removeTokAux tok.toList s.toList.length s.toList)

/-- `os.path.join(dir, file)` for the relative file names this program
joins. -/
def pathJoin (dir file : String) : String := dir ++ "/" ++ file

/-- `self.system_prompt` (src/app.py lines 135-142). -/
def system_prompt : String :=
  "You are InstaLLM, a helpful and professional AI assistant. \nYour responses should be:\n1. Clear and concise\n2. Focused on the user's request\n3. Professional and informative\n4. Well-structured and easy to read\n\nAlways maintain a helpful and professional tone. If you're unsure about something, say so rather than making things up."

/-- The `for file in os.listdir(self.models_dir)` loop of
`_load_available_models` (src/app.py lines 149-155), with the
`available_models` and `bitnet_models` accumulators threaded explicitly. -/
def scanLoop (dir : String) :
    List String → List String → List (String × String) →
    List String × List (String × String)
  | [], av, bn => (av, bn)
  | f :: rest, av, bn =>
    if f.endsWith ".gguf" then
      if strContains f.toLower "bitnet" then
        scanLoop dir rest av (dictSet bn f (pathJoin dir f))
      else
        scanLoop dir rest (av ++ [f]) bn
    else
      scanLoop dir rest av bn

/-- `InstaLLM._load_available_models` (src/app.py lines 144-161) given the
directory listing `files`: resets and refills `available_models` and
`bitnet_models`, and returns the combined dropdown list
`self.available_models + list(self.bitnet_models.keys())`. -/
def load_available_models (s : AppState) (files : List String) :
    AppState × List String :=
  let scanned := scanLoop s.models_dir files [] []
  ({ s with available_models := scanned.1, bitnet_models := scanned.2 },
    scanned.1 ++ scanned.2.map Prod.fst)

/-- The state `InstaLLM.__init__` (src/app.py lines 120-142) builds, given
the directory listing the initial `_load_available_models` call sees. -/
def initState (models_dir : String) (files : List String) : AppState :=
  (load_available_models
    { models_dir := models_dir, available_models := [], bitnet_models := [],
      models := [], conversation_history := [], fresh := 0 } files).1

/-- `InstaLLM.load_model` (src/app.py lines 163-205).  An empty
`model_name` models the Python falsy check `if not model_name`; the
membership tests, the `os.path.exists` guards and the `try/except` around
the two construction branches follow the source line by line. -/
def load_model (env : Env) (s : AppState) (model_name : String) :
    AppState × String :=
  if model_name = "" then
    (s, "Please select a model first!")
  else if model_name ∉ s.available_models ∧
      dictGet s.bitnet_models model_name = none then
    (s, "Model " ++ model_name ++ " not found!")
  else
    match dictGet s.bitnet_models model_name with
    | some model_path =>
      if env.fileExists model_path then
        ({ s with models := dictSet s.models model_name (Handle.bitnet model_path) },
          "BitNet model " ++ model_name ++ " loaded successfully!")
      else
        (s, "Error: BitNet model file not found at " ++ model_path)
    | none =>
      let model_path := pathJoin s.models_dir model_name
      if env.fileExists model_path then
        match env.llamaNew model_path with
        | Except.error e =>
          (s, "Error loading model " ++ model_name ++ ": " ++ e)
        | Except.ok _ =>
          ({ s with
              models := dictSet s.models model_name (Handle.llama s.fresh),
              conversation_history := dictSet s.conversation_history model_name [],
              fresh := s.fresh + 1 },
            "Model " ++ model_name ++ " loaded successfully!")
      else
        (s, "Error: Model file not found at " ++ model_path)

/-- The `<|user|>`/`<|assistant|>` wrapping of one history message
(src/app.py lines 227-237): a role other than `"user"` is rendered with
the assistant tags. -/
def renderTurn (t : Turn) : String :=
  if t.role = "user" then
    "<|user|>\n" ++ t.content ++ "\n</|user|>\n"
  else
    "<|assistant|>\n" ++ t.content ++ "\n</|assistant|>\n"

/-- The `conversation_context` string of src/app.py lines 222-239: the
system preamble, the `+=` loop over the history, the trailing assistant
tag. -/
def conversationContext (sp : String) (hist : List Turn) : String :=
  (hist.foldl (fun acc msg => acc ++ renderTurn msg)
    ("<|system|>\n" ++ sp ++ "\n</|system|>\n")) ++ "<|assistant|>\n"

/-- `InstaLLM.generate_response` (src/app.py lines 207-308).  The user
turn is appended before the backend runs; every failure after that point
returns with the appended user turn still in place.  The llama branch
strips, removes `"</|assistant|>"` and strips again (lines 298-299); the
bitnet branch only strips (line 274). -/
def generate_response (env : Env) (s : AppState) (model_name prompt : String) :
    AppState × String :=
  if model_name = "" then
    (s, "Please select a model first!")
  else
    match dictGet s.models model_name with
    | none => (s, "Please load the model first!")
    | some model_info =>
      let hist0 :=
        match dictGet s.conversation_history model_name with
        | none => dictSet s.conversation_history model_name []
        | some _ => s.conversation_history
      let newTurns := (dictGet hist0 model_name).getD [] ++ [Turn.mk "user" prompt]
      let s1 := { s with conversation_history := dictSet hist0 model_name newTurns }
      let ctx := conversationContext system_prompt newTurns
      match model_info with
      | Handle.bitnet path =>
        if env.fileExists "run_inference.py" then
          match env.runInference path ctx with
          | Except.error e =>
            (s1, "Error running BitNet inference: " ++ e ++ "\nPython path: "
                ++ env.pythonPath ++ "\nModel path: " ++ path)
          | Except.ok r =>
            if r.returncode = 0 then
              let response_text := pyStrip r.stdout
              if response_text = "" then
                (s1, "Error: BitNet returned empty response")
              else
                ({ s1 with conversation_history :=
                    (dictSet s1.conversation_history model_name
                      (newTurns ++ [Turn.mk "assistant" response_text])) },
                  response_text)
            else
              (s1, "BitNet inference error (code " ++ toString r.returncode
                  ++ "):\nSTDOUT: " ++ r.stdout ++ "\nSTDERR: " ++ r.stderr)
        else
          (s1, "Error: run_inference.py not found. Please ensure it's in the same directory as app.py")
      | Handle.llama obj =>
        match env.llamaCall obj ctx with
        | Except.error e => (s1, "Error generating response: " ++ e)
        | Except.ok raw =>
          let response_text := pyStrip (removeTok (pyStrip raw) "</|assistant|>")
          ({ s1 with conversation_history :=
              (dictSet s1.conversation_history model_name
                (newTurns ++ [Turn.mk "assistant" response_text])) },
            response_text)

/-- The conversation history recorded for a model: the stored turn list,
the empty list when the model has no entry yet. -/
def history (s : AppState) (m : String) : List Turn :=
  (dictGet s.conversation_history m).getD []

/-! ### Dictionary lemmas -/

theorem dictGet_dictSet_self {α : Type} (d : List (String × α)) (k : String) (v : α) :
    dictGet (dictSet d k v) k = some v := by
  induction d with
  | nil => simp [dictGet, dictSet]
  | cons hd tl ih =>
    by_cases h : hd.1 = k
    · simp [dictGet, dictSet, h]
    · simpa [dictGet, dictSet, h] using ih

theorem dictGet_dictSet_ne {α : Type} (d : List (String × α)) (k k' : String) (v : α)
    (h : ¬ k = k') : dictGet (dictSet d k v) k' = dictGet d k' := by
  induction d with
  | nil => simp [dictGet, dictSet, h]
  | cons hd tl ih =>
    by_cases hh : hd.1 = k
    · simp [dictGet, dictSet, hh, h]
    · simp [dictGet, dictSet, hh, ih]

theorem dictSet_dictSet {α : Type} (d : List (String × α)) (k : String) (v w : α) :
    dictSet (dictSet d k v) k w = dictSet d k w := by
  induction d with
  | nil => simp [dictSet]
  | cons hd tl ih =>
    by_cases h : hd.1 = k
    · simp [dictSet, h]
    · simp [dictSet, h, ih]

theorem dictSet_eq_self_of_get {α : Type} (d : List (String × α)) (k : String) (v : α)
    (h : dictGet d k = some v) : dictSet d k v = d := by
  induction d with
  | nil => simp [dictGet] at h
  | cons hd tl ih =>
    obtain ⟨k1, v1⟩ := hd
    by_cases hh : k1 = k
    · subst hh
      simp [dictGet] at h
      simp [dictSet, h]
    · simp [dictGet, hh] at h
      simp [dictSet, hh, ih h]

theorem dictGet_dictSet_isSome {α : Type} (d : List (String × α)) (k k' : String) (v : α)
    (h : (dictGet d k').isSome = true) : (dictGet (dictSet d k v) k').isSome = true := by
  by_cases hk : k = k'
  · subst hk; simp [dictGet_dictSet_self]
  · rwa [dictGet_dictSet_ne d k k' v hk]

theorem mem_keys_dictSet {α : Type} (d : List (String × α)) (k k' : String) (v : α) :
    k' ∈ (dictSet d k v).map Prod.fst ↔ k' = k ∨ k' ∈ d.map Prod.fst := by
  induction d with
  | nil => simp [dictSet, eq_comm]
  | cons hd tl ih =>
    by_cases h : hd.1 = k
    · subst h
      simp [dictSet]
    · simp [dictSet, h, ih]
      tauto

/-! ### Substring lemmas -/

theorem prefixMatch_append (n t : List Char) : prefixMatch n (n ++ t) = true := by
  induction n with
  | nil => simp [prefixMatch]
  | cons c cs ih => simp [prefixMatch, ih]

theorem hasSub_cons (n : List Char) (c : Char) (l : List Char)
    (h : hasSub n l = true) : hasSub n (c :: l) = true := by
  cases n with
  | nil => simp [hasSub, prefixMatch]
  | cons a as => simp [hasSub, h]

theorem hasSub_of_append (n pre t : List Char) : hasSub n (pre ++ (n ++ t)) = true := by
  induction pre with
  | nil =>
    cases n with
    | nil => cases t <;> simp [hasSub, prefixMatch]
    | cons a as =>
      have h := prefixMatch_append (a :: as) t
      simp only [List.cons_append] at h
      simp [hasSub, h]
  | cons c cs ih => exact hasSub_cons _ _ _ ih

theorem strContains_of_data (h n : String) (pre suf : List Char)
    (hd : h.data = pre ++ n.data ++ suf) : strContains h n = true := by
  have hd' : h.toList = pre ++ (n.toList ++ suf) := by
    rw [show h.toList = h.data from rfl, show n.toList = n.data from rfl, hd,
      List.append_assoc]
  unfold strContains
  rw [hd']
  exact hasSub_of_append _ _ _

/-! ### The conversation-context closed form -/

theorem foldl_append_join (l : List String) (a : String) :
    l.foldl (fun r x => r ++ x) a = a ++ String.join l := by
  induction l generalizing a with
  | nil => simp [String.join, String.append_empty]
  | cons x xs ih =>
    have hx := ih (a ++ x)
    have h0 : String.join (x :: xs) = x ++ String.join xs := by
      have h1 : String.join (x :: xs) = List.foldl (fun r s => r ++ s) ("" ++ x) xs := rfl
      rw [h1, ih ("" ++ x), String.empty_append]
    rw [List.foldl_cons, hx, h0, String.append_assoc]

/-- The `+=` loop of src/app.py lines 226-239 in closed form: the rendered
turns in chronological order, between the system preamble and the trailing
assistant tag. -/
theorem conversationContext_closed (sp : String) (hist : List Turn) :
    conversationContext sp hist =
      "<|system|>\n" ++ sp ++ "\n</|system|>\n"
        ++ String.join (hist.map renderTurn) ++ "<|assistant|>\n" := by
  unfold conversationContext
  rw [← List.foldl_map renderTurn (fun r x => r ++ x) hist]
  rw [foldl_append_join]

/-! ### Characterizations of the two operations on a loaded model -/

/-- `load_model` on a known standard model whose file exists and whose
`Llama` constructor succeeds: the handle stored is a fresh llama object
and the conversation history of the model is (re)initialized to `[]`. -/
theorem load_model_llama_ok (env : Env) (s : AppState) (m : String)
    (hm : ¬ m = "") (hav : m ∈ s.available_models)
    (hbn : dictGet s.bitnet_models m = none)
    (hfe : env.fileExists (pathJoin s.models_dir m) = true)
    (hnew : env.llamaNew (pathJoin s.models_dir m) = Except.ok ()) :
    load_model env s m =
      ({ s with
          models := (dictSet s.models m (Handle.llama s.fresh)),
          conversation_history := (dictSet s.conversation_history m []),
          fresh := s.fresh + 1 },
        "Model " ++ m ++ " loaded successfully!") := by
  have hnf : ¬ (m ∉ s.available_models ∧ dictGet s.bitnet_models m = none) :=
    fun hc => hc.1 hav
  unfold load_model
  rw [if_neg hm, if_neg hnf, hbn]
  simp only [hfe, if_true, hnew]

/-- `load_model` on a known alternate-backend model whose file exists:
the stored handle is the path, and the conversation history is not
touched. -/
theorem load_model_bitnet_ok (env : Env) (s : AppState) (m path : String)
    (hm : ¬ m = "") (hbp : dictGet s.bitnet_models m = some path)
    (hfe : env.fileExists path = true) :
    load_model env s m =
      ({ s with models := (dictSet s.models m (Handle.bitnet path)) },
        "BitNet model " ++ m ++ " loaded successfully!") := by
  have hnf : ¬ (m ∉ s.available_models ∧ dictGet s.bitnet_models m = none) := by
    intro hc
    rw [hbp] at hc
    exact Option.some_ne_none path hc.2
  unfold load_model
  rw [if_neg hm, if_neg hnf, hbp]
  simp only [hfe, if_true]

/-- `generate_response` on a loaded standard model, with the history
bookkeeping of src/app.py lines 217-219 collapsed: the user turn is
appended to the stored history (the empty list when the model has none
yet), and the llama object then runs on the rendered context. -/
theorem generate_response_llama (env : Env) (s : AppState) (m p : String) (obj : Nat)
    (hm : ¬ m = "") (hi : dictGet s.models m = some (Handle.llama obj)) :
    generate_response env s m p =
      (let newTurns := history s m ++ [Turn.mk "user" p]
       let s1 : AppState :=
         { s with conversation_history := (dictSet s.conversation_history m newTurns) }
       match env.llamaCall obj (conversationContext system_prompt newTurns) with
       | Except.error e => (s1, "Error generating response: " ++ e)
       | Except.ok raw =>
         ({ s with conversation_history :=
             (dictSet s.conversation_history m
               (newTurns ++ [Turn.mk "assistant" (pyStrip (removeTok (pyStrip raw) "</|assistant|>"))])) },
           pyStrip (removeTok (pyStrip raw) "</|assistant|>"))) := by
  unfold generate_response
  rw [if_neg hm]
  simp only [hi]
  cases hch : dictGet s.conversation_history m with
  | none =>
    simp only [hch, history, Option.getD_none, dictGet_dictSet_self, Option.getD_some,
      dictSet_dictSet]
  | some v =>
    simp only [hch, history, Option.getD_some, dictSet_dictSet]

/-- `generate_response` on a loaded alternate-backend model, with the
history bookkeeping of src/app.py lines 217-219 collapsed. -/
theorem generate_response_bitnet (env : Env) (s : AppState) (m p path : String)
    (hm : ¬ m = "") (hi : dictGet s.models m = some (Handle.bitnet path)) :
    generate_response env s m p =
      (let newTurns := history s m ++ [Turn.mk "user" p]
       let s1 : AppState :=
         { s with conversation_history := (dictSet s.conversation_history m newTurns) }
       if env.fileExists "run_inference.py" then
         match env.runInference path (conversationContext system_prompt newTurns) with
         | Except.error e =>
           (s1, "Error running BitNet inference: " ++ e ++ "\nPython path: "
               ++ env.pythonPath ++ "\nModel path: " ++ path)
         | Except.ok r =>
           if r.returncode = 0 then
             if pyStrip r.stdout = "" then
               (s1, "Error: BitNet returned empty response")
             else
               ({ s with conversation_history :=
                   (dictSet s.conversation_history m
                     (newTurns ++ [Turn.mk "assistant" (pyStrip r.stdout)])) },
                 pyStrip r.stdout)
           else
             (s1, "BitNet inference error (code " ++ toString r.returncode
                 ++ "):\nSTDOUT: " ++ r.stdout ++ "\nSTDERR: " ++ r.stderr)
       else
         (s1, "Error: run_inference.py not found. Please ensure it's in the same directory as app.py")) := by
  unfold generate_response
  rw [if_neg hm]
  simp only [hi]
  cases hch : dictGet s.conversation_history m with
  | none =>
    simp only [hch, history, Option.getD_none, dictGet_dictSet_self, Option.getD_some,
      dictSet_dictSet]
  | some v =>
    simp only [hch, history, Option.getD_some, dictSet_dictSet]

/-- `generate_response` on a non-empty model name with no loaded handle:
the early rejection of src/app.py lines 212-213, before any state is
touched. -/
theorem generate_response_unloaded (env : Env) (s : AppState) (m p : String)
    (hm : ¬ m = "") (h : dictGet s.models m = none) :
    generate_response env s m p = (s, "Please load the model first!") := by
  unfold generate_response
  rw [if_neg hm]
  simp only [h]

/-! ### Concrete fixtures for witnesses and counterexamples -/

/-- A benign environment: every file exists, construction succeeds, the
llama object answers `" hello </|assistant|>"`, the subprocess exits 0
with standard output `" out "`. -/
def envOk : Env :=
  { fileExists := fun _ => true,
    pythonPath := "/usr/bin/python3",
    llamaNew := fun _ => Except.ok (),
    llamaCall := fun _ _ => Except.ok " hello </|assistant|>",
    runInference := fun _ _ => Except.ok (SubprocResult.mk 0 " out " "") }

/-- A registry with one standard and one alternate-backend model file and
nothing loaded yet. -/
def sReg : AppState :=
  { models_dir := "models",
    available_models := ["a.gguf"],
    bitnet_models := [("b.bitnet.gguf", "models/b.bitnet.gguf")],
    models := [],
    conversation_history := [],
    fresh := 0 }

/-- `sReg` after `load_model envOk sReg "a.gguf"` and one successful
generation: the standard model holds a two-turn history. -/
def sChat : AppState :=
  { sReg with
    models := [("a.gguf", Handle.llama 0)],
    conversation_history := [("a.gguf", [Turn.mk "user" "hi", Turn.mk "assistant" "hello"])],
    fresh := 1 }

/-- `sReg` with the alternate-backend model loaded and a two-turn
history. -/
def sBit : AppState :=
  { sReg with
    models := [("b.bitnet.gguf", Handle.bitnet "models/b.bitnet.gguf")],
    conversation_history := [("b.bitnet.gguf", [Turn.mk "user" "hi", Turn.mk "assistant" "out"])] }

/-! ### C1 -/

/-- C1: the claim fails on the code.  `load_model` never checks whether a
model is already loaded, so a second `load_model` of the standard model
`"a.gguf"` (loaded, with a non-empty history) succeeds again, resets the
history to `[]` (src/app.py line 199) and replaces the stored handle by a
newly constructed one. -/
theorem c1_counterexample :
    (load_model envOk sChat "a.gguf").2 = "Model a.gguf loaded successfully!" ∧
    history sChat "a.gguf" = [Turn.mk "user" "hi", Turn.mk "assistant" "hello"] ∧
    history (load_model envOk sChat "a.gguf").1 "a.gguf" = [] ∧
    ¬ dictGet (load_model envOk sChat "a.gguf").1.models "a.gguf"
        = dictGet sChat.models "a.gguf" := by
  decide

/-- C1 (amended): a second load of an already-loaded alternate-backend
model is a no-op on the state (same handle entry, history untouched),
while a second successful load of a standard model stores a newly
constructed handle and resets that model's history to the empty list. -/
theorem c1_second_load (env : Env) (s : AppState) (m path : String) :
    (dictGet s.bitnet_models m = some path →
      dictGet s.models m = some (Handle.bitnet path) →
      ¬ m = "" → env.fileExists path = true →
      load_model env s m = (s, "BitNet model " ++ m ++ " loaded successfully!")) ∧
    (¬ m = "" → m ∈ s.available_models →
      dictGet s.bitnet_models m = none →
      env.fileExists (pathJoin s.models_dir m) = true →
      env.llamaNew (pathJoin s.models_dir m) = Except.ok () →
      dictGet (load_model env s m).1.models m = some (Handle.llama s.fresh) ∧
      history (load_model env s m).1 m = []) := by
  constructor
  · intro hbp hhandle hm hfe
    rw [load_model_bitnet_ok env s m path hm hbp hfe]
    rw [dictSet_eq_self_of_get s.models m (Handle.bitnet path) hhandle]
  · intro hm hav hbn hfe hnew
    rw [load_model_llama_ok env s m hm hav hbn hfe hnew]
    constructor
    · exact dictGet_dictSet_self s.models m (Handle.llama s.fresh)
    · simp [history, dictGet_dictSet_self]

/-- Instantiation of the amended C1: reloading the loaded alternate-backend
model of `sBit` changes nothing, in particular its two-turn history
stays. -/
theorem c1_second_load_witness :
    load_model envOk sBit "b.bitnet.gguf"
      = (sBit, "BitNet model b.bitnet.gguf loaded successfully!") :=
  (c1_second_load envOk sBit "b.bitnet.gguf" "models/b.bitnet.gguf").1
    rfl rfl (by decide) rfl

/-! ### C3 -/

/-- C3: the claim fails at the empty model name: `""` has no loaded handle,
yet `generate_response` returns the model-selection message of src/app.py
line 210, not `"Please load the model first!"`. -/
theorem c3_counterexample :
    dictGet sReg.models "" = none ∧
    generate_response envOk sReg "" "hi" = (sReg, "Please select a model first!") ∧
    ¬ ("Please select a model first!" = "Please load the model first!") := by
  decide

/-- C3 (amended): for every non-empty model name with no entry in the
handle map, `generate_response` returns the fixed rejection message and
leaves the whole state (handle map and every history) unchanged. -/
theorem c3_unloaded_rejected (env : Env) (s : AppState) (m p : String)
    (hm : ¬ m = "") (h : dictGet s.models m = none) :
    generate_response env s m p = (s, "Please load the model first!") :=
  generate_response_unloaded env s m p hm h

/-- Instantiation of the amended C3 at the unloaded model `"a.gguf"`. -/
theorem c3_unloaded_rejected_witness :
    generate_response envOk sReg "a.gguf" "hi" = (sReg, "Please load the model first!") :=
  c3_unloaded_rejected envOk sReg "a.gguf" "hi" (by decide) rfl

/-! ### C4 -/

/-- C4: on a loaded alternate-backend model, a subprocess exit code other
than 0 makes `generate_response` return the error text of src/app.py
lines 268-272, which carries both captured streams verbatim, and no
assistant turn is appended: the history gains exactly the user turn. -/
theorem c4_nonzero_exit (env : Env) (s : AppState) (m p path o er : String) (c : Int)
    (hm : ¬ m = "")
    (hi : dictGet s.models m = some (Handle.bitnet path))
    (hfe : env.fileExists "run_inference.py" = true)
    (hrun : ∀ q ctx, env.runInference q ctx = Except.ok (SubprocResult.mk c o er))
    (hc : ¬ c = 0) :
    (generate_response env s m p).2
        = "BitNet inference error (code " ++ toString c ++ "):\nSTDOUT: " ++ o
          ++ "\nSTDERR: " ++ er ∧
    strContains (generate_response env s m p).2 o = true ∧
    strContains (generate_response env s m p).2 er = true ∧
    history (generate_response env s m p).1 m = history s m ++ [Turn.mk "user" p] := by
  rw [generate_response_bitnet env s m p path hm hi]
  simp only [hfe, if_true, hrun, if_neg hc]
  refine ⟨by first | rfl | trivial, ?_, ?_, ?_⟩
  · refine strContains_of_data _ o
      (("BitNet inference error (code " ++ toString c ++ "):\nSTDOUT: ").data)
      (("\nSTDERR: " ++ er).data) ?_
    simp [String.data_append, List.append_assoc]
  · refine strContains_of_data _ er
      (("BitNet inference error (code " ++ toString c ++ "):\nSTDOUT: " ++ o
        ++ "\nSTDERR: ").data) [] ?_
    simp [String.data_append, List.append_assoc]
  · simp [history, dictGet_dictSet_self]

/-- The benign environment with the subprocess failing: exit code 1,
captured streams `"OUT"` and `"ERR"`. -/
def envFail : Env :=
  { envOk with runInference := fun _ _ => Except.ok (SubprocResult.mk 1 "OUT" "ERR") }

/-- Instantiation of C4 on the loaded alternate-backend model of `sBit`
with exit code 1. -/
theorem c4_nonzero_exit_witness :
    (generate_response envFail sBit "b.bitnet.gguf" "hi").2
        = "BitNet inference error (code " ++ toString (1 : Int) ++ "):\nSTDOUT: " ++ "OUT"
          ++ "\nSTDERR: " ++ "ERR" ∧
    strContains (generate_response envFail sBit "b.bitnet.gguf" "hi").2 "OUT" = true ∧
    strContains (generate_response envFail sBit "b.bitnet.gguf" "hi").2 "ERR" = true ∧
    history (generate_response envFail sBit "b.bitnet.gguf" "hi").1 "b.bitnet.gguf"
        = history sBit "b.bitnet.gguf" ++ [Turn.mk "user" "hi"] :=
  c4_nonzero_exit envFail sBit "b.bitnet.gguf" "hi" "models/b.bitnet.gguf" "OUT" "ERR" 1
    (by decide) rfl rfl (fun _ _ => rfl) (by decide)

/-! ### C5 -/

/-- The benign environment with the subprocess succeeding but printing the
delimiter token on its standard output. -/
def envTok : Env :=
  { envOk with runInference :=
      fun _ _ => Except.ok (SubprocResult.mk 0 " </|assistant|>ok " "") }

/-- C5: the claim fails on the alternate backend: a successful
`generate_response` there only strips whitespace (src/app.py line 274), so
a subprocess output containing `"</|assistant|>"` is returned, and
recorded as the assistant turn, with the delimiter token still in it. -/
theorem c5_counterexample :
    (generate_response envTok sBit "b.bitnet.gguf" "hi").2 = "</|assistant|>ok" ∧
    strContains (generate_response envTok sBit "b.bitnet.gguf" "hi").2 "</|assistant|>"
        = true ∧
    history (generate_response envTok sBit "b.bitnet.gguf" "hi").1 "b.bitnet.gguf"
        = history sBit "b.bitnet.gguf"
          ++ [Turn.mk "user" "hi", Turn.mk "assistant" "</|assistant|>ok"] := by
  decide

/-- C5 (amended): what a successful call returns (and records as the
assistant turn): on the standard backend, the raw output stripped, with
the occurrences of `"</|assistant|>"` removed by one left-to-right
replacement pass, stripped again; on the alternate backend, only the
surrounding whitespace of the captured output is removed — no delimiter
token is stripped there. -/
theorem c5_returned_text (env : Env) (s : AppState) (m p raw path : String) (obj : Nat) :
    (dictGet s.models m = some (Handle.llama obj) → ¬ m = "" →
      (∀ ctx, env.llamaCall obj ctx = Except.ok raw) →
      (generate_response env s m p).2
          = pyStrip (removeTok (pyStrip raw) "</|assistant|>")) ∧
    (dictGet s.models m = some (Handle.bitnet path) → ¬ m = "" →
      env.fileExists "run_inference.py" = true →
      (∀ q ctx, env.runInference q ctx = Except.ok (SubprocResult.mk 0 raw "")) →
      ¬ pyStrip raw = "" →
      (generate_response env s m p).2 = pyStrip raw) := by
  constructor
  · intro hi hm hcall
    rw [generate_response_llama env s m p obj hm hi]
    simp only [hcall]
  · intro hi hm hfe hrun hne
    rw [generate_response_bitnet env s m p path hm hi]
    simp only [hfe, if_true, hrun, if_neg hne]

/-- Instantiation of the amended C5 on the standard backend: the raw
output `" hello </|assistant|>"` comes back as `"hello"`. -/
theorem c5_returned_text_witness :
    (generate_response envOk sChat "a.gguf" "hi").2
        = pyStrip (removeTok (pyStrip " hello </|assistant|>") "</|assistant|>") :=
  (c5_returned_text envOk sChat "a.gguf" "hi" " hello </|assistant|>" "unused" 0).1
    rfl (by decide) (fun _ => rfl)

/-! ### C2 -/

/-- C2: from a state in which model `m` has no conversation-history entry
yet (as in a fresh instance), a successful `load_model m` leaves `m` with
an empty history, and one subsequent successful `generate_response m p`
leaves exactly a user turn carrying `p` followed by an assistant turn
carrying the returned text — on either backend. -/
theorem c2_load_then_generate (env : Env) (s : AppState) (m p raw path : String)
    (hh : dictGet s.conversation_history m = none)
    (hm : ¬ m = "")
    (hfe : ∀ q, env.fileExists q = true) :
    (m ∈ s.available_models → dictGet s.bitnet_models m = none →
      env.llamaNew (pathJoin s.models_dir m) = Except.ok () →
      (∀ obj c, env.llamaCall obj c = Except.ok raw) →
      history (load_model env s m).1 m = [] ∧
      (generate_response env (load_model env s m).1 m p).2
          = pyStrip (removeTok (pyStrip raw) "</|assistant|>") ∧
      history (generate_response env (load_model env s m).1 m p).1 m
          = [Turn.mk "user" p,
             Turn.mk "assistant" (pyStrip (removeTok (pyStrip raw) "</|assistant|>"))]) ∧
    (dictGet s.bitnet_models m = some path →
      (∀ q c, env.runInference q c = Except.ok (SubprocResult.mk 0 raw "")) →
      ¬ pyStrip raw = "" →
      history (load_model env s m).1 m = [] ∧
      (generate_response env (load_model env s m).1 m p).2 = pyStrip raw ∧
      history (generate_response env (load_model env s m).1 m p).1 m
          = [Turn.mk "user" p, Turn.mk "assistant" (pyStrip raw)]) := by
  constructor
  · intro hav hbn hnew hcall
    rw [load_model_llama_ok env s m hm hav hbn (hfe _) hnew]
    rw [generate_response_llama env _ m p s.fresh hm (dictGet_dictSet_self _ _ _)]
    simp only [hcall, history, dictGet_dictSet_self, Option.getD_some, dictSet_dictSet,
      List.nil_append]
    refine ⟨?_, ?_, ?_⟩ <;> first | rfl | trivial
  · intro hbp hrun hne
    rw [load_model_bitnet_ok env s m path hm hbp (hfe _)]
    rw [generate_response_bitnet env _ m p path hm (dictGet_dictSet_self _ _ _)]
    simp only [hrun, hfe, if_true, hh, history, dictGet_dictSet_self, Option.getD_some,
      Option.getD_none, dictSet_dictSet, List.nil_append, if_neg hne]
    refine ⟨?_, ?_, ?_⟩ <;> first | rfl | trivial

/-! ### C7 -/

/-- Scan-loop step: a `.gguf` file whose lowercased name contains
`"bitnet"` goes to the `bitnet_models` accumulator. -/
theorem scanLoop_cons_bit (dir f : String) (rest av : List String)
    (bn : List (String × String))
    (h1 : f.endsWith ".gguf" = true) (h2 : strContains f.toLower "bitnet" = true) :
    scanLoop dir (f :: rest) av bn
      = scanLoop dir rest av (dictSet bn f (pathJoin dir f)) := by
  simp [scanLoop, h1, h2]

/-- Scan-loop step: any other `.gguf` file goes to `available_models`. -/
theorem scanLoop_cons_std (dir f : String) (rest av : List String)
    (bn : List (String × String))
    (h1 : f.endsWith ".gguf" = true) (h2 : ¬ strContains f.toLower "bitnet" = true) :
    scanLoop dir (f :: rest) av bn = scanLoop dir rest (av ++ [f]) bn := by
  simp [scanLoop, h1, h2]

/-- Scan-loop step: a file not ending in `.gguf` is skipped. -/
theorem scanLoop_cons_skip (dir f : String) (rest av : List String)
    (bn : List (String × String)) (h1 : ¬ f.endsWith ".gguf" = true) :
    scanLoop dir (f :: rest) av bn = scanLoop dir rest av bn := by
  simp [scanLoop, h1]

/-- The `available_models` accumulator of the scan loop in closed form:
the `.gguf` files whose lowercased name does not contain `"bitnet"`, in
directory order, appended to the incoming accumulator. -/
theorem scanLoop_fst (dir : String) (files av : List String) (bn : List (String × String)) :
    (scanLoop dir files av bn).1
      = av ++ files.filter
          (fun f => f.endsWith ".gguf" && !(strContains f.toLower "bitnet")) := by
  induction files generalizing av bn with
  | nil => simp [scanLoop]
  | cons f rest ih =>
    by_cases h1 : f.endsWith ".gguf" = true
    · by_cases h2 : strContains f.toLower "bitnet" = true
      · rw [scanLoop_cons_bit dir f rest av bn h1 h2, ih]
        simp [List.filter_cons, h2]
      · rw [scanLoop_cons_std dir f rest av bn h1 h2, ih]
        simp [List.filter_cons, h1, h2]
    · rw [scanLoop_cons_skip dir f rest av bn h1, ih]
      simp [List.filter_cons, h1]

/-- Membership among the keys of the `bitnet_models` accumulator after the
scan loop: an incoming key, or a scanned `.gguf` file whose lowercased
name contains `"bitnet"`. -/
theorem scanLoop_keys_mem (dir : String) (files av : List String)
    (bn : List (String × String)) (k : String) :
    (k ∈ ((scanLoop dir files av bn).2.map Prod.fst)) ↔
      (k ∈ bn.map Prod.fst ∨
        (k ∈ files ∧ k.endsWith ".gguf" = true ∧ strContains k.toLower "bitnet" = true)) := by
  induction files generalizing av bn with
  | nil => simp [scanLoop]
  | cons f rest ih =>
    by_cases h1 : f.endsWith ".gguf" = true
    · by_cases h2 : strContains f.toLower "bitnet" = true
      · rw [scanLoop_cons_bit dir f rest av bn h1 h2, ih, mem_keys_dictSet]
        simp only [List.mem_cons]
        constructor
        · rintro ((rfl | hbnk) | ⟨hr, hp⟩)
          · exact Or.inr ⟨Or.inl rfl, h1, h2⟩
          · exact Or.inl hbnk
          · exact Or.inr ⟨Or.inr hr, hp⟩
        · rintro (hbnk | ⟨(rfl | hr), hp⟩)
          · exact Or.inl (Or.inr hbnk)
          · exact Or.inl (Or.inl rfl)
          · exact Or.inr ⟨hr, hp⟩
      · rw [scanLoop_cons_std dir f rest av bn h1 h2, ih]
        simp only [List.mem_cons]
        constructor
        · rintro (hbnk | ⟨hr, hp⟩)
          · exact Or.inl hbnk
          · exact Or.inr ⟨Or.inr hr, hp⟩
        · rintro (hbnk | ⟨(rfl | hr), hp⟩)
          · exact Or.inl hbnk
          · exact absurd hp.2 h2
          · exact Or.inr ⟨hr, hp⟩
    · rw [scanLoop_cons_skip dir f rest av bn h1, ih]
      simp only [List.mem_cons]
      constructor
      · rintro (hbnk | ⟨hr, hp⟩)
        · exact Or.inl hbnk
        · exact Or.inr ⟨Or.inr hr, hp⟩
      · rintro (hbnk | ⟨(rfl | hr), hp⟩)
        · exact Or.inl hbnk
        · exact absurd hp.1 h1
        · exact Or.inr ⟨hr, hp⟩

/-- C7: the model scan keeps exactly the `.gguf` file names of the
directory listing: the returned combined list is `available_models`
followed by the `bitnet_models` keys, a name is in it iff it is a listed
`.gguf` file, the standard group is exactly the names without `"bitnet"`
(case-insensitively) and the alternate-backend group exactly those with
it; an empty directory yields the empty list (and, the model being total,
nothing is raised). -/
theorem c7_scan_classification (s : AppState) (files : List String) :
    ((load_available_models s files).2
        = (load_available_models s files).1.available_models
          ++ ((load_available_models s files).1.bitnet_models.map Prod.fst)) ∧
    (∀ f, f ∈ (load_available_models s files).2
        ↔ (f ∈ files ∧ f.endsWith ".gguf" = true)) ∧
    (∀ f, f ∈ (load_available_models s files).1.available_models →
        strContains f.toLower "bitnet" = false) ∧
    (∀ f, f ∈ ((load_available_models s files).1.bitnet_models.map Prod.fst) →
        strContains f.toLower "bitnet" = true) ∧
    (load_available_models s []).2 = [] := by
  refine ⟨rfl, ?_, ?_, ?_, rfl⟩
  · intro f
    show f ∈ (scanLoop s.models_dir files [] []).1
        ++ ((scanLoop s.models_dir files [] []).2.map Prod.fst) ↔ _
    rw [List.mem_append, scanLoop_fst, scanLoop_keys_mem]
    simp only [List.nil_append, List.mem_filter, List.map_nil, List.not_mem_nil, false_or]
    constructor
    · rintro (⟨hf, hq⟩ | ⟨hf, h1, _⟩)
      · exact ⟨hf, ((Bool.and_eq_true _ _).mp hq).1⟩
      · exact ⟨hf, h1⟩
    · rintro ⟨hf, hend⟩
      by_cases hb : strContains f.toLower "bitnet" = true
      · exact Or.inr ⟨hf, hend, hb⟩
      · refine Or.inl ⟨hf, ?_⟩
        simp [hend, hb]
  · intro f hf
    rw [show (load_available_models s files).1.available_models
        = (scanLoop s.models_dir files [] []).1 from rfl, scanLoop_fst] at hf
    simp only [List.nil_append, List.mem_filter] at hf
    have hq := ((Bool.and_eq_true _ _).mp hf.2).2
    simpa using hq
  · intro f hf
    rw [show (load_available_models s files).1.bitnet_models
        = (scanLoop s.models_dir files [] []).2 from rfl] at hf
    rw [scanLoop_keys_mem] at hf
    simp only [List.map_nil, List.not_mem_nil, false_or] at hf
    exact hf.2.2

/-! ### C6 -/

/-- C6: on every input and every behavior of the outside world, both
handlers return one of a fixed family of human-readable strings (or, on
success, a stripped response text); in this total model nothing is raised
past the handler boundary — every raised backend exception `e` surfaces
only inside one of the error strings. -/
theorem c6_total_messages (env : Env) (s : AppState) (m p : String) :
    ((load_model env s m).2 = "Please select a model first!" ∨
     (load_model env s m).2 = "Model " ++ m ++ " not found!" ∨
     (∃ q, (load_model env s m).2 = "Error: BitNet model file not found at " ++ q) ∨
     (load_model env s m).2 = "BitNet model " ++ m ++ " loaded successfully!" ∨
     (∃ q, (load_model env s m).2 = "Error: Model file not found at " ++ q) ∨
     (∃ e, (load_model env s m).2 = "Error loading model " ++ m ++ ": " ++ e) ∨
     (load_model env s m).2 = "Model " ++ m ++ " loaded successfully!") ∧
    ((generate_response env s m p).2 = "Please select a model first!" ∨
     (generate_response env s m p).2 = "Please load the model first!" ∨
     (generate_response env s m p).2
        = "Error: run_inference.py not found. Please ensure it's in the same directory as app.py" ∨
     (∃ e q, (generate_response env s m p).2
        = "Error running BitNet inference: " ++ e ++ "\nPython path: "
          ++ env.pythonPath ++ "\nModel path: " ++ q) ∨
     (∃ (c : Int) (o er : String), ¬ c = 0 ∧ (generate_response env s m p).2
        = "BitNet inference error (code " ++ toString c ++ "):\nSTDOUT: " ++ o
          ++ "\nSTDERR: " ++ er) ∨
     (generate_response env s m p).2 = "Error: BitNet returned empty response" ∨
     (∃ e, (generate_response env s m p).2 = "Error generating response: " ++ e) ∨
     (∃ out, (generate_response env s m p).2 = pyStrip out)) := by
  constructor
  · by_cases hm : m = ""
    · left
      simp [load_model, hm]
    · by_cases hnf : m ∉ s.available_models ∧ dictGet s.bitnet_models m = none
      · right; left
        simp [load_model, hm, hnf]
      · cases hbn : dictGet s.bitnet_models m with
        | some q =>
          by_cases hfe : env.fileExists q = true
          · right; right; right; left
            rw [load_model_bitnet_ok env s m q hm hbn hfe]
          · right; right; left
            exact ⟨q, by simp [load_model, hm, hnf, hbn, hfe]⟩
        | none =>
          have hav : m ∈ s.available_models := by
            by_contra hc
            exact hnf ⟨hc, hbn⟩
          by_cases hfe : env.fileExists (pathJoin s.models_dir m) = true
          · cases hnew : env.llamaNew (pathJoin s.models_dir m) with
            | error e =>
              right; right; right; right; right; left
              exact ⟨e, by simp [load_model, hm, hav, hbn, hfe, hnew]⟩
            | ok u =>
              right; right; right; right; right; right
              cases u
              rw [load_model_llama_ok env s m hm hav hbn hfe hnew]
          · right; right; right; right; left
            exact ⟨pathJoin s.models_dir m, by simp [load_model, hm, hav, hbn, hfe]⟩
  · by_cases hm : m = ""
    · left
      simp [generate_response, hm]
    · cases hi : dictGet s.models m with
      | none =>
        right; left
        rw [generate_response_unloaded env s m p hm hi]
      | some info =>
        cases info with
        | llama obj =>
          rw [generate_response_llama env s m p obj hm hi]
          cases hcall : env.llamaCall obj
              (conversationContext system_prompt (history s m ++ [Turn.mk "user" p])) with
          | error e =>
            right; right; right; right; right; right; left
            exact ⟨e, by simp [hcall]⟩
          | ok raw =>
            right; right; right; right; right; right; right
            exact ⟨removeTok (pyStrip raw) "</|assistant|>", by simp [hcall]⟩
        | bitnet path =>
          rw [generate_response_bitnet env s m p path hm hi]
          by_cases hfe : env.fileExists "run_inference.py" = true
          · cases hrun : env.runInference path
                (conversationContext system_prompt (history s m ++ [Turn.mk "user" p])) with
            | error e =>
              right; right; right; left
              exact ⟨e, path, by simp [hfe, hrun]⟩
            | ok r =>
              by_cases hc : r.returncode = 0
              · by_cases hne : pyStrip r.stdout = ""
                · right; right; right; right; right; left
                  simp [hfe, hrun, hc, hne]
                · right; right; right; right; right; right; right
                  exact ⟨r.stdout, by simp [hfe, hrun, hc, hne]⟩
              · right; right; right; right; left
                exact ⟨r.returncode, r.stdout, r.stderr, hc, by simp [hfe, hrun, hc]⟩
          · right; right; left
            simp [hfe]

/-- Instantiation of C2 on the standard model of `sReg`: after load the
history is empty; after one generation of `"hi"` the returned text is
`"hello"` and the history is exactly that user and assistant pair. -/
theorem c2_load_then_generate_witness :
    history (load_model envOk sReg "a.gguf").1 "a.gguf" = [] ∧
    (generate_response envOk (load_model envOk sReg "a.gguf").1 "a.gguf" "hi").2
        = pyStrip (removeTok (pyStrip " hello </|assistant|>") "</|assistant|>") ∧
    history (generate_response envOk (load_model envOk sReg "a.gguf").1 "a.gguf" "hi").1 "a.gguf"
        = [Turn.mk "user" "hi",
           Turn.mk "assistant" (pyStrip (removeTok (pyStrip " hello </|assistant|>") "</|assistant|>"))] :=
  (c2_load_then_generate envOk sReg "a.gguf" "hi" " hello </|assistant|>" "unused"
      rfl (by decide) (fun _ => rfl)).1
    (by decide) rfl rfl (fun _ _ => rfl)

/-! ### C8 -/

/-- C8: the prompt handed to the backend of a loaded model is exactly the
system preamble in its tags, followed by every turn of the updated
history (the prior turns plus the just-appended user turn) wrapped in the
tags of its role, in order, followed by the trailing assistant tag: two
environments agreeing on that one string (and on the filesystem and
interpreter path) produce identical results, the rendering loop produces
exactly that string, each turn is wrapped according to its role, and on
either backend a successful call returns the post-processed backend
answer to that exact string. -/
theorem c8_backend_prompt (env env' : Env) (s : AppState) (m p ctx : String) (info : Handle)
    (hm : ¬ m = "")
    (hinfo : dictGet s.models m = some info)
    (hctx : ctx = "<|system|>\n" ++ system_prompt ++ "\n</|system|>\n"
        ++ String.join ((history s m ++ [Turn.mk "user" p]).map renderTurn)
        ++ "<|assistant|>\n")
    (hfe : env'.fileExists = env.fileExists)
    (hpy : env'.pythonPath = env.pythonPath)
    (hllama : ∀ obj, env'.llamaCall obj ctx = env.llamaCall obj ctx)
    (hrun : ∀ q, env'.runInference q ctx = env.runInference q ctx) :
    generate_response env' s m p = generate_response env s m p ∧
    conversationContext system_prompt (history s m ++ [Turn.mk "user" p]) = ctx ∧
    (∀ t : Turn, (t.role = "user" →
        renderTurn t = "<|user|>\n" ++ t.content ++ "\n</|user|>\n") ∧
      (¬ t.role = "user" →
        renderTurn t = "<|assistant|>\n" ++ t.content ++ "\n</|assistant|>\n")) ∧
    (∀ obj raw, info = Handle.llama obj → env.llamaCall obj ctx = Except.ok raw →
      (generate_response env s m p).2 = pyStrip (removeTok (pyStrip raw) "</|assistant|>")) ∧
    (∀ q r, info = Handle.bitnet q → env.fileExists "run_inference.py" = true →
      env.runInference q ctx = Except.ok r → r.returncode = 0 → ¬ pyStrip r.stdout = "" →
      (generate_response env s m p).2 = pyStrip r.stdout) := by
  have hcc : conversationContext system_prompt (history s m ++ [Turn.mk "user" p]) = ctx := by
    rw [conversationContext_closed, hctx]
  refine ⟨?_, hcc, ?_, ?_, ?_⟩
  · cases info with
    | llama obj =>
      rw [generate_response_llama env' s m p obj hm hinfo,
        generate_response_llama env s m p obj hm hinfo]
      simp only [hcc, hllama]
    | bitnet path =>
      rw [generate_response_bitnet env' s m p path hm hinfo,
        generate_response_bitnet env s m p path hm hinfo]
      simp only [hcc, hfe, hpy, hrun]
  · intro t
    constructor <;> intro h <;> simp [renderTurn, h]
  · rintro obj raw rfl hcall
    rw [generate_response_llama env s m p obj hm hinfo]
    simp [hcc, hcall]
  · rintro q r rfl hfe2 hcall hc0 hne
    rw [generate_response_bitnet env s m p q hm hinfo]
    simp [hcc, hfe2, hcall, hc0, hne]

/-- The context string the backend of `sChat` receives for the prompt
`"again"`, written in the closed form C8 states. -/
def ctx8 : String :=
  "<|system|>\n" ++ system_prompt ++ "\n</|system|>\n"
    ++ String.join ((history sChat "a.gguf" ++ [Turn.mk "user" "again"]).map renderTurn)
    ++ "<|assistant|>\n"

/-- The benign environment restricted to the prompt `ctx8`: off that one
string both backends raise. -/
def env8 : Env :=
  { envOk with
    llamaCall := fun _ c2 =>
      if c2 = ctx8 then Except.ok " hello </|assistant|>" else Except.error "off-prompt",
    runInference := fun _ c2 =>
      if c2 = ctx8 then Except.ok (SubprocResult.mk 0 " out " "")
      else Except.error "off-prompt" }

set_option maxRecDepth 100000 in
/-- Instantiation of C8 on `sChat`: an environment that only answers on
the rendered context string behaves like the benign one. -/
theorem c8_backend_prompt_witness :
    generate_response env8 sChat "a.gguf" "again" = generate_response envOk sChat "a.gguf" "again" ∧
    conversationContext system_prompt (history sChat "a.gguf" ++ [Turn.mk "user" "again"]) = ctx8 ∧
    (∀ t : Turn, (t.role = "user" →
        renderTurn t = "<|user|>\n" ++ t.content ++ "\n</|user|>\n") ∧
      (¬ t.role = "user" →
        renderTurn t = "<|assistant|>\n" ++ t.content ++ "\n</|assistant|>\n")) ∧
    (∀ obj raw, Handle.llama 0 = Handle.llama obj →
      envOk.llamaCall obj ctx8 = Except.ok raw →
      (generate_response envOk sChat "a.gguf" "again").2
        = pyStrip (removeTok (pyStrip raw) "</|assistant|>")) ∧
    (∀ q r, Handle.llama 0 = Handle.bitnet q →
      envOk.fileExists "run_inference.py" = true →
      envOk.runInference q ctx8 = Except.ok r → r.returncode = 0 → ¬ pyStrip r.stdout = "" →
      (generate_response envOk sChat "a.gguf" "again").2 = pyStrip r.stdout) :=
  c8_backend_prompt envOk env8 sChat "a.gguf" "again" ctx8 (Handle.llama 0)
    (by decide) rfl rfl rfl rfl (fun _ => by simp [env8, envOk])
    (fun _ => by simp [env8, envOk])

/-! ### C9 -/

/-- `load_model` never removes a key from the handle map. -/
theorem load_model_keeps_key (env : Env) (s : AppState) (m k : String)
    (h : (dictGet s.models k).isSome = true) :
    (dictGet (load_model env s m).1.models k).isSome = true := by
  unfold load_model
  by_cases hm : m = ""
  · rw [if_pos hm]
    exact h
  · rw [if_neg hm]
    by_cases hnf : m ∉ s.available_models ∧ dictGet s.bitnet_models m = none
    · rw [if_pos hnf]
      exact h
    · rw [if_neg hnf]
      cases hbn : dictGet s.bitnet_models m with
      | some q =>
        simp only [hbn]
        by_cases hfe : env.fileExists q = true
        · simp only [hfe, if_true]
          exact dictGet_dictSet_isSome s.models m k (Handle.bitnet q) h
        · rw [if_neg hfe]
          exact h
      | none =>
        simp only [hbn]
        by_cases hfe : env.fileExists (pathJoin s.models_dir m) = true
        · rw [if_pos hfe]
          cases hnew : env.llamaNew (pathJoin s.models_dir m) with
          | error e =>
            simp only [hnew]
            exact h
          | ok u =>
            simp only [hnew]
            exact dictGet_dictSet_isSome s.models m k (Handle.llama s.fresh) h
        · rw [if_neg hfe]
          exact h

/-- `generate_response` never modifies the handle map at all. -/
theorem generate_response_models_eq (env : Env) (s : AppState) (m p : String) :
    (generate_response env s m p).1.models = s.models := by
  by_cases hm : m = ""
  · unfold generate_response
    rw [if_pos hm]
  · cases hi : dictGet s.models m with
    | none => rw [generate_response_unloaded env s m p hm hi]
    | some info =>
      cases info with
      | llama obj =>
        rw [generate_response_llama env s m p obj hm hi]
        cases hcall : env.llamaCall obj
            (conversationContext system_prompt (history s m ++ [Turn.mk "user" p])) with
        | error e => simp [hcall]
        | ok raw => simp [hcall]
      | bitnet path =>
        rw [generate_response_bitnet env s m p path hm hi]
        by_cases hfe : env.fileExists "run_inference.py" = true
        · cases hrun : env.runInference path
              (conversationContext system_prompt (history s m ++ [Turn.mk "user" p])) with
          | error e => simp [hfe, hrun]
          | ok r =>
            by_cases hc : r.returncode = 0
            · by_cases hne : pyStrip r.stdout = "" <;> simp [hfe, hrun, hc, hne]
            · simp [hfe, hrun, hc]
        · simp [hfe]

/-- C9: once a model name has an entry in the handle map it keeps one: no
call to `load_model`, `generate_response` or the registry re-scan removes
a key (the handle may be replaced on a re-load, never dropped). -/
theorem c9_no_unload (env : Env) (s : AppState) (m p k : String) (files : List String)
    (h : (dictGet s.models k).isSome = true) :
    (dictGet (load_model env s m).1.models k).isSome = true ∧
    (dictGet (generate_response env s m p).1.models k).isSome = true ∧
    (dictGet (load_available_models s files).1.models k).isSome = true := by
  refine ⟨load_model_keeps_key env s m k h, ?_, h⟩
  rw [generate_response_models_eq]
  exact h

/-- Instantiation of C9 on `sChat`: the loaded `"a.gguf"` stays loaded
across a load of another model, a generation and a re-scan. -/
theorem c9_no_unload_witness :
    (dictGet (load_model envOk sChat "b.bitnet.gguf").1.models "a.gguf").isSome = true ∧
    (dictGet (generate_response envOk sChat "b.bitnet.gguf" "hi").1.models "a.gguf").isSome = true ∧
    (dictGet (load_available_models sChat ["x.gguf"]).1.models "a.gguf").isSome = true :=
  c9_no_unload envOk sChat "b.bitnet.gguf" "hi" "a.gguf" ["x.gguf"] rfl

/-! ### C10 -/

/-- C10: a generation that fails after the load check is not atomic: the
user turn was appended before the backend ran (src/app.py line 219), and
every failure path returns with it still recorded, so the history ends up
exactly one user turn longer, with no matching assistant turn — for a
llama exception, a subprocess exception, a non-zero exit and an empty
output. -/
theorem c10_user_turn_persists (env : Env) (s : AppState) (m p e path : String)
    (obj : Nat) (c : Int) (o er : String) :
    (dictGet s.models m = some (Handle.llama obj) → ¬ m = "" →
      (∀ ctx, env.llamaCall obj ctx = Except.error e) →
      (generate_response env s m p).2 = "Error generating response: " ++ e ∧
      history (generate_response env s m p).1 m = history s m ++ [Turn.mk "user" p]) ∧
    (dictGet s.models m = some (Handle.bitnet path) → ¬ m = "" →
      env.fileExists "run_inference.py" = true →
      (∀ q ctx, env.runInference q ctx = Except.error e) →
      (generate_response env s m p).2
          = "Error running BitNet inference: " ++ e ++ "\nPython path: "
            ++ env.pythonPath ++ "\nModel path: " ++ path ∧
      history (generate_response env s m p).1 m = history s m ++ [Turn.mk "user" p]) ∧
    (dictGet s.models m = some (Handle.bitnet path) → ¬ m = "" →
      env.fileExists "run_inference.py" = true →
      (∀ q ctx, env.runInference q ctx = Except.ok (SubprocResult.mk c o er)) →
      ¬ c = 0 →
      history (generate_response env s m p).1 m = history s m ++ [Turn.mk "user" p]) ∧
    (dictGet s.models m = some (Handle.bitnet path) → ¬ m = "" →
      env.fileExists "run_inference.py" = true →
      (∀ q ctx, env.runInference q ctx = Except.ok (SubprocResult.mk 0 o er)) →
      pyStrip o = "" →
      (generate_response env s m p).2 = "Error: BitNet returned empty response" ∧
      history (generate_response env s m p).1 m = history s m ++ [Turn.mk "user" p]) := by
  refine ⟨?_, ?_, ?_, ?_⟩
  · intro hi hm hcall
    rw [generate_response_llama env s m p obj hm hi]
    simp [hcall, history, dictGet_dictSet_self]
  · intro hi hm hfe hrun
    rw [generate_response_bitnet env s m p path hm hi]
    simp [hfe, hrun, history, dictGet_dictSet_self]
  · intro hi hm hfe hrun hc
    rw [generate_response_bitnet env s m p path hm hi]
    simp [hfe, hrun, hc, history, dictGet_dictSet_self]
  · intro hi hm hfe hrun hne
    rw [generate_response_bitnet env s m p path hm hi]
    simp [hfe, hrun, hne, history, dictGet_dictSet_self]

/-- The benign environment with a raising llama backend. -/
def envErr : Env :=
  { envOk with llamaCall := fun _ _ => Except.error "boom" }

/-- Instantiation of C10, llama-exception case, on `sChat`: the error text
comes back and the history has gained exactly the user turn. -/
theorem c10_user_turn_persists_witness :
    (generate_response envErr sChat "a.gguf" "hi").2 = "Error generating response: " ++ "boom" ∧
    history (generate_response envErr sChat "a.gguf" "hi").1 "a.gguf"
        = history sChat "a.gguf" ++ [Turn.mk "user" "hi"] :=
  (c10_user_turn_persists envErr sChat "a.gguf" "hi" "boom" "unused" 0 0 "" "").1
    rfl (by decide) (fun _ => rfl)

end InstaLLM
